import Mathlib

/-!
# Verification of the Comment Resolution & Extraction Engine

Shallow embedding of `src/lib/converter/comments/index.ts`: the comment
cache (`getCommentWithCache`), symbol resolution with the applicability
filter (`getComment`), and the JSDoc sub-tag extractor (`getJsDocComment`).

JavaScript objects have identity; the cache stores the canonical parsed
`Comment` object and hands out clones.  To make aliasing questions
expressible we model the JS object heap explicitly: `Comment` values live
in a heap indexed by allocation ids, the cache stores heap ids, and every
value returned to a caller is a freshly allocated copy.  The two-level
`WeakMap<ts.SourceFile, Map<number, Comment>>` is modelled as a lookup
keyed by (source-file identity, range start offset), which has the same
lookup/insert semantics.

External collaborators (`discoverComment`, `discoverSignatureComment`,
`lexBlockComment`, `parseComment`) are out of scope of the engine and not
present under `src/`; per the specification they are pure functions of
their inputs and are taken as parameters of the embedding.  The
composition `parseComment ∘ lexBlockComment` is a single abstract
function from (file text, start, end, config) to a parsed `Comment`.
-/

namespace TDoc

/-- Modelled from the spec: `Tag = { name: string, content }` and TypeDoc's
`CommentTag` (the `models` module is not under `src/`): a block tag has a
tag-name token (e.g. `"@param"`), an optional identifier name, and content.
Content is modelled as a list of display-part strings. -/
structure CommentTag where
  tag : String
  name : Option String
  content : List String
  deriving DecidableEq, Repr

/-- Modelled from the spec: `Comment = { tags, modifiers, summary }` (the
`models` module is not under `src/`).  An ordered sequence of block tags, a
set of modifier markers, and summary content. -/
structure Comment where
  summary : List String
  blockTags : List CommentTag
  modifiers : List String
  deriving DecidableEq, Repr

/-- Modelled from the spec: `new Comment()` with no arguments — empty
summary, no tags, no modifiers. -/
def Comment.empty : Comment := ⟨[], [], []⟩

/-- Modelled from the spec: the `Comment` constructor applied to an
optional summary argument (`new Comment(content?)`); an absent argument
defaults to empty summary. -/
def Comment.create (content : Option (List String)) : Comment :=
  ⟨content.getD [], [], []⟩

/-- Modelled from the spec: `comment.hasModifier(name)` — membership in the
modifier-marker set. -/
def Comment.hasModifier (c : Comment) (m : String) : Bool :=
  c.modifiers.contains m

/-- Modelled from the spec: `comment.getTag(tagName)` — first block tag
whose tag-name token matches. -/
def Comment.getTag (c : Comment) (t : String) : Option CommentTag :=
  c.blockTags.find? (fun tg => tg.tag == t)

/-- Modelled from the spec: `comment.getIdentifiedTag(identifier, tagName)`
— first block tag matching both the tag-name token and the identifier. -/
def Comment.getIdentifiedTag (c : Comment) (identifier : String)
    (tagName : String) : Option CommentTag :=
  c.blockTags.find? (fun tg => tg.tag == tagName && tg.name == some identifier)

/-- A `ts.SourceFile`: opaque identity (JS object identity, the `WeakMap`
key) plus the fields the engine reads (`text`, `fileName`). -/
structure SourceFile where
  id : Nat
  fileName : String
  text : String
  deriving DecidableEq, Repr

/-- `ts.CommentRange.kind` is `SingleLineCommentTrivia |
MultiLineCommentTrivia`; a closed two-variant type, so the `assertNever`
default branch of the source's `switch` is unreachable. -/
inductive CommentKind where
  | multiLine
  | singleLine
  deriving DecidableEq, Repr

/-- `ts.CommentRange`: kind plus start (`pos`) and end offsets. -/
structure CommentRange where
  kind : CommentKind
  pos : Nat
  end_ : Nat
  deriving DecidableEq, Repr

/-- `CommentParserConfig` from the source: recognized tag vocabularies,
passed through unmodified to the parser. -/
structure CommentParserConfig where
  blockTags : List String
  inlineTags : List String
  modifierTags : List String
  deriving DecidableEq, Repr

/-- Failures that escape the engine: the literal `throw "GERRIT FIX ME"`
on line-style comments, and JS runtime `TypeError`s. -/
inductive EngineError where
  | thrown (msg : String)
  | runtimeError (msg : String)
  deriving DecidableEq, Repr

/-- `parseComment(lexBlockComment(file.text, pos, end), config, warning)`:
the two external stages composed, a pure function of the raw text range
and the configuration (spec §5: discovery/parsing are pure functions of
their inputs). -/
def ParseFn := String → Nat → Nat → CommentParserConfig → Comment

/-- The mutable world of the engine: the process-wide comment cache
(mapping (file id, offset) to the heap id of the canonical parsed
`Comment`), the JS object heap for `Comment` values, a fresh-allocation
counter, a parse counter (number of invocations of the external parser),
and the logger's accumulated warnings and errors. -/
structure EngineState where
  cache : Nat → Nat → Option Nat
  heap : Nat → Option Comment
  nextId : Nat
  parseCount : Nat
  warnings : List String
  errors : List String

/-- The state at engine start-up: empty cache, empty heap, no diagnostics. -/
def initState : EngineState :=
  { cache := fun _ _ => none
    heap := fun _ => none
    nextId := 0
    parseCount := 0
    warnings := []
    errors := [] }

/-- Allocate a fresh `Comment` object holding a copy of `data`
(`comment.clone()` — the clone is an independent deep copy). -/
def allocClone (s : EngineState) (data : Comment) : Nat × EngineState :=
  (s.nextId,
   { s with
      heap := fun i => if i = s.nextId then some data else s.heap i
      nextId := s.nextId + 1 })

/-- The cache-miss tail of `getCommentWithCache`: store the freshly parsed
`comment` object as the canonical cached value (`cache.set(range.pos,
comment)`), then return `comment.clone()` — a second, independent
allocation with equal data.  The parse counter records the one parser
invocation that produced `comment`. -/
def storeAndClone (s : EngineState) (fid pos : Nat) (comment : Comment) :
    Nat × EngineState :=
  (s.nextId + 1,
   { cache := fun f p =>
       if f = fid ∧ p = pos then some s.nextId else s.cache f p
     heap := fun i =>
       if i = s.nextId ∨ i = s.nextId + 1 then some comment else s.heap i
     nextId := s.nextId + 2
     parseCount := s.parseCount + 1
     warnings := s.warnings
     errors := s.errors })

/-- `getCommentWithCache(discovered, config, logger)` from the source.
Nothing discovered returns nothing; a cache hit returns a clone of the
stored canonical value; a miss on a block-style range parses, stores the
canonical object, and returns a clone; a miss on a line-style range
executes `throw "GERRIT FIX ME"`.  (The `line`/`warning` closure of the
source only feeds the external parser's diagnostics and has no effect in
the model, where the parser is a pure function.) -/
def getCommentWithCache (parse : ParseFn)
    (discovered : Option (SourceFile × CommentRange))
    (config : CommentParserConfig) (s : EngineState) :
    Except EngineError (Option Nat) × EngineState :=
  match discovered with
  | none => (.ok none, s)
  | some (file, range) =>
    match s.cache file.id range.pos with
    | some cid =>
      -- `cache.get(range.pos)!.clone()`; the `!` assertion is modelled
      -- by defaulting, discharged for well-formed states.
      let (rid, s') := allocClone s ((s.heap cid).getD Comment.empty)
      (.ok (some rid), s')
    | none =>
      match range.kind with
      | .multiLine =>
        let comment := parse file.text range.pos range.end_ config
        let (rid, s') := storeAndClone s file.id range.pos comment
        (.ok (some rid), s')
      | .singleLine =>
        (.error (.thrown "GERRIT FIX ME"), s)

/-- A declaration of a symbol; the engine only queries `ts.isSourceFile`
on it. -/
structure Decl where
  isSourceFile : Bool
  deriving DecidableEq, Repr

/-- A `ts.Symbol`: `symbol.declarations` is optional
(`ts.Declaration[] | undefined`). -/
structure Symbol where
  declarations : Option (List Decl)
  deriving DecidableEq, Repr

/-- `ReflectionKind` is only forwarded to the external discoverer. -/
abbrev ReflectionKind := Nat

/-- `symbol.declarations?.some(ts.isSourceFile)` with JS truthiness: an
absent declarations list yields `undefined`, which is falsy. -/
def declsHaveSourceFile (sym : Symbol) : Bool :=
  match sym.declarations with
  | none => false
  | some ds => ds.any (·.isSourceFile)

/-- `discoverComment(symbol, kind, logger)`: the external Raw Discoverer,
a parameter of the embedding (spec §6; not under `src/`). -/
def DiscoverFn := Symbol → ReflectionKind → Option (SourceFile × CommentRange)

/-- `getComment(symbol, kind, config, logger)` from the source: resolve
through the cache, then apply the applicability filter.  When the symbol's
declarations include a whole source file and a comment was found, the
comment is kept only with a `@packageDocumentation` modifier or `@module`
tag; when they do not and a comment was found, a comment carrying either
marker is discarded. -/
def getComment (parse : ParseFn) (discover : DiscoverFn) (symbol : Symbol)
    (kind : ReflectionKind) (config : CommentParserConfig)
    (s : EngineState) : Except EngineError (Option Nat) × EngineState :=
  match getCommentWithCache parse (discover symbol kind) config s with
  | (.error e, s1) => (.error e, s1)
  | (.ok commentId, s1) =>
    match commentId with
    | none => (.ok none, s1)
    | some cid =>
      let c := (s1.heap cid).getD Comment.empty
      if declsHaveSourceFile symbol
          ∧ ¬ c.hasModifier "@packageDocumentation"
          ∧ c.getTag "@module" = none then
        (.ok none, s1)
      else if ¬ declsHaveSourceFile symbol
          ∧ (c.hasModifier "@packageDocumentation"
             ∨ (c.getTag "@module").isSome) then
        (.ok none, s1)
      else
        (.ok (some cid), s1)

/-- `discoverSignatureComment(declaration)`: the external signature
discoverer, abstracted over the declaration it receives. -/
def getSignatureComment (parse : ParseFn)
    (discovered : Option (SourceFile × CommentRange))
    (config : CommentParserConfig) (s : EngineState) :
    Except EngineError (Option Nat) × EngineState :=
  getCommentWithCache parse discovered config s

/-- The five JSDoc declaration shapes `getJsDocComment` accepts. -/
inductive JsDocDeclKind where
  | propertyLike
  | callback
  | typedef
  | template
  | enumTag
  deriving DecidableEq, Repr

/-- A JSDoc sub-tag declaration node, with the fields `getJsDocComment`
reads.  The upward walk `while (!ts.isJSDoc(parent)) parent = parent.parent`
over the syntax tree is represented by its result: the enclosing whole
JSDoc block's range (`jsDocPos`, `jsDocEnd`) within the declaration's
source file.  `comment` is the declaration's inline comment,
`typeParameters` the names listed by a `@template` tag, `name` the result
of `declaration.name?.getText()`, and `tagName` is
`declaration.tagName.text`. -/
structure JsDocDeclaration where
  kind : JsDocDeclKind
  sourceFile : SourceFile
  jsDocPos : Nat
  jsDocEnd : Nat
  comment : Option String
  typeParameters : List String
  name : Option String
  tagName : String
  deriving DecidableEq, Repr

/-- JS truthiness of an optional string: `undefined` and the empty string
are falsy (`declaration.comment` and the `if (!name)` guard). -/
def jsStringTruthy : Option String → Bool
  | none => false
  | some str => str ≠ ""

/-- The warning text of the ambiguous multi-type-parameter branch. -/
def multiTemplateWarning : String :=
  "TypeDoc does not support multiple type parameters defined in a single @template tag with a comment."

/-- The bug-report error text of the missing-tag branch. -/
def missingTagError (name : String) : String :=
  "Failed to find JSDoc tag for " ++ name ++
    " after parsing comment, please file a bug report."

/-- The target-name determination of `getJsDocComment` (source lines
157–163): a `@template` tag uses its first listed type parameter's name
(`declaration.typeParameters[0].name.text`, a JS `TypeError` when the list
is empty), any other declaration uses `declaration.name?.getText()`. -/
def targetName (decl : JsDocDeclaration) :
    Except EngineError (Option String) :=
  if decl.kind = .template then
    match decl.typeParameters.head? with
    | some n => Except.ok (some n)
    | none =>
      Except.error
        (EngineError.runtimeError
          "Cannot read properties of undefined (reading name)")
  else Except.ok decl.name

/-- `getJsDocComment(declaration, config, logger)` from the source:
resolve the enclosing whole comment block through the cache as a
block-style range, then extract the requested sub-tag.  Enum-member tags
return a new `Comment` from the `@enum` tag's content; a `@template` tag
with an inline comment and more than one type parameter warns and returns
nothing; otherwise `targetName` picks the name, an absent name returns
nothing, and a missing identified tag logs the bug-report error and
returns nothing. -/
def getJsDocComment (parse : ParseFn) (decl : JsDocDeclaration)
    (config : CommentParserConfig) (s : EngineState) :
    Except EngineError (Option Comment) × EngineState :=
  match getCommentWithCache parse
      (some (decl.sourceFile,
        ⟨CommentKind.multiLine, decl.jsDocPos, decl.jsDocEnd⟩))
      config s with
  | (.error e, s1) => (.error e, s1)
  | (.ok idOpt, s1) =>
    -- the source's `!` assertion: a non-`undefined` discovered argument
    -- always yields a comment (modelled by defaulting).
    let c := (idOpt.bind s1.heap).getD Comment.empty
    if decl.kind = .enumTag then
      (.ok (some (Comment.create ((c.getTag "@enum").map (·.content)))), s1)
    else if decl.kind = .template ∧ jsStringTruthy decl.comment
        ∧ decl.typeParameters.length > 1 then
      (.ok none, { s1 with warnings := s1.warnings ++ [multiTemplateWarning] })
    else
      match targetName decl with
      | .error e => (.error e, s1)
      | .ok none => (.ok none, s1)
      | .ok (some name) =>
        -- `if (!name) return;` — undefined and the empty string are falsy.
        if name = "" then (.ok none, s1)
        else
          match c.getIdentifiedTag name ("@" ++ decl.tagName) with
          | none =>
            (.ok none,
             { s1 with errors := s1.errors ++ [missingTagError name] })
          | some tag =>
            -- `new Comment(tag.content.slice())` — a copy of the content.
            (.ok (some (Comment.create (some tag.content))), s1)

/-- Well-formedness of an engine state: every heap id held by the cache was
actually allocated (it is below the allocation counter and backed by a
heap object).  Holds for `initState` and is preserved by resolution; the
freshness of clone allocations rests on it. -/
def WF (s : EngineState) : Prop :=
  ∀ f p cid, s.cache f p = some cid → cid < s.nextId ∧ (s.heap cid).isSome

theorem wf_initState : WF initState := by
  intro f p cid h
  simp [initState] at h

/-! ## Unfolding lemmas for the shared core -/

theorem gcwc_none (parse : ParseFn) (cfg : CommentParserConfig)
    (s : EngineState) :
    getCommentWithCache parse none cfg s = (.ok none, s) := rfl

theorem gcwc_hit (parse : ParseFn) (f : SourceFile) (r : CommentRange)
    (cfg : CommentParserConfig) (s : EngineState) (cid : Nat)
    (h : s.cache f.id r.pos = some cid) :
    getCommentWithCache parse (some (f, r)) cfg s =
      (.ok (some s.nextId),
       (allocClone s ((s.heap cid).getD Comment.empty)).2) := by
  simp only [getCommentWithCache, h]
  rfl

theorem gcwc_miss_multi (parse : ParseFn) (f : SourceFile) (r : CommentRange)
    (cfg : CommentParserConfig) (s : EngineState)
    (h : s.cache f.id r.pos = none) (hk : r.kind = .multiLine) :
    getCommentWithCache parse (some (f, r)) cfg s =
      (.ok (some (s.nextId + 1)),
       (storeAndClone s f.id r.pos (parse f.text r.pos r.end_ cfg)).2) := by
  simp only [getCommentWithCache, h, hk]
  rfl

theorem gcwc_miss_line (parse : ParseFn) (f : SourceFile) (r : CommentRange)
    (cfg : CommentParserConfig) (s : EngineState)
    (h : s.cache f.id r.pos = none) (hk : r.kind = .singleLine) :
    getCommentWithCache parse (some (f, r)) cfg s =
      (.error (.thrown "GERRIT FIX ME"), s) := by
  simp only [getCommentWithCache, h, hk]

theorem allocClone_cache (s : EngineState) (d : Comment) :
    ((allocClone s d).2).cache = s.cache := rfl

theorem allocClone_parseCount (s : EngineState) (d : Comment) :
    ((allocClone s d).2).parseCount = s.parseCount := rfl

theorem allocClone_nextId (s : EngineState) (d : Comment) :
    ((allocClone s d).2).nextId = s.nextId + 1 := rfl

theorem allocClone_heap_self (s : EngineState) (d : Comment) :
    ((allocClone s d).2).heap s.nextId = some d := by
  simp [allocClone]

theorem allocClone_heap_ne (s : EngineState) (d : Comment) (i : Nat)
    (h : i ≠ s.nextId) :
    ((allocClone s d).2).heap i = s.heap i := by
  simp [allocClone, h]

theorem storeAndClone_cache_self (s : EngineState) (fid pos : Nat)
    (c : Comment) :
    ((storeAndClone s fid pos c).2).cache fid pos = some s.nextId := by
  simp [storeAndClone]

theorem storeAndClone_heap_canonical (s : EngineState) (fid pos : Nat)
    (c : Comment) :
    ((storeAndClone s fid pos c).2).heap s.nextId = some c := by
  simp [storeAndClone]

theorem storeAndClone_heap_clone (s : EngineState) (fid pos : Nat)
    (c : Comment) :
    ((storeAndClone s fid pos c).2).heap (s.nextId + 1) = some c := by
  simp [storeAndClone]

theorem storeAndClone_parseCount (s : EngineState) (fid pos : Nat)
    (c : Comment) :
    ((storeAndClone s fid pos c).2).parseCount = s.parseCount + 1 := rfl

theorem storeAndClone_nextId (s : EngineState) (fid pos : Nat)
    (c : Comment) :
    ((storeAndClone s fid pos c).2).nextId = s.nextId + 2 := rfl

/-! ## Concrete fixtures used by witnesses -/

/-- A concrete source file for witness instantiations. -/
def wFile : SourceFile := ⟨0, "a.ts", "/** doc */"⟩

/-- A concrete block-style comment range. -/
def wRange : CommentRange := ⟨CommentKind.multiLine, 0, 10⟩

/-- A concrete parser configuration. -/
def wCfg : CommentParserConfig := ⟨[], [], []⟩

/-- A concrete parsed comment. -/
def wComment : Comment := ⟨["doc"], [], []⟩

/-- A concrete external parser returning `wComment` everywhere. -/
def wParse : ParseFn := fun _ _ _ _ => wComment

/-! ## C1: idempotent parsing -/

/-- C1: resolving the same (unit, offset) twice performs zero additional
parses on the second resolution — the parse counter is unchanged — and
both returned `Comment` values are structurally equal (the heap objects
behind the two returned ids hold equal data). -/
theorem C1_idempotent_parsing
    (parse : ParseFn) (f : SourceFile) (r : CommentRange)
    (cfg : CommentParserConfig) (s : EngineState) (hwf : WF s) (rid1 : Nat)
    (h1 : (getCommentWithCache parse (some (f, r)) cfg s).1
      = .ok (some rid1)) :
    ∃ rid2 : Nat,
      (getCommentWithCache parse (some (f, r)) cfg
          (getCommentWithCache parse (some (f, r)) cfg s).2).1
        = .ok (some rid2)
      ∧ (getCommentWithCache parse (some (f, r)) cfg
          (getCommentWithCache parse (some (f, r)) cfg s).2).2.parseCount
        = (getCommentWithCache parse (some (f, r)) cfg s).2.parseCount
      ∧ (getCommentWithCache parse (some (f, r)) cfg
          (getCommentWithCache parse (some (f, r)) cfg s).2).2.heap rid2
        = (getCommentWithCache parse (some (f, r)) cfg s).2.heap rid1 := by
  rcases hc : s.cache f.id r.pos with _ | cid
  · cases hk : r.kind
    case multiLine =>
      rw [gcwc_miss_multi parse f r cfg s hc hk] at h1 ⊢
      simp only [Except.ok.injEq, Option.some.injEq] at h1
      subst h1
      have hhit :
          ((storeAndClone s f.id r.pos
            (parse f.text r.pos r.end_ cfg)).2).cache f.id r.pos
          = some s.nextId := storeAndClone_cache_self ..
      rw [gcwc_hit parse f r cfg _ s.nextId hhit]
      refine ⟨_, rfl, allocClone_parseCount .., ?_⟩
      rw [allocClone_heap_self, storeAndClone_heap_canonical,
        storeAndClone_heap_clone]
      simp
    case singleLine =>
      rw [gcwc_miss_line parse f r cfg s hc hk] at h1
      simp at h1
  · obtain ⟨hlt, hsome⟩ := hwf f.id r.pos cid hc
    rw [gcwc_hit parse f r cfg s cid hc] at h1 ⊢
    simp only [Except.ok.injEq, Option.some.injEq] at h1
    subst h1
    have hc1 :
        ((allocClone s ((s.heap cid).getD Comment.empty)).2).cache f.id r.pos
        = some cid := by
      rw [allocClone_cache]; exact hc
    rw [gcwc_hit parse f r cfg _ cid hc1]
    refine ⟨_, rfl, allocClone_parseCount .., ?_⟩
    rw [allocClone_heap_self, allocClone_heap_self,
      allocClone_heap_ne s _ cid (Nat.ne_of_lt hlt)]

/-- C1 witness: a first resolution from the initial state at a concrete
block-style range, followed by a second resolution. -/
theorem C1_idempotent_parsing_witness :
    WF initState
    ∧ (getCommentWithCache wParse (some (wFile, wRange)) wCfg initState).1
        = .ok (some 1)
    ∧ ∃ rid2 : Nat,
        (getCommentWithCache wParse (some (wFile, wRange)) wCfg
            (getCommentWithCache wParse (some (wFile, wRange)) wCfg
              initState).2).1
          = .ok (some rid2)
        ∧ (getCommentWithCache wParse (some (wFile, wRange)) wCfg
            (getCommentWithCache wParse (some (wFile, wRange)) wCfg
              initState).2).2.parseCount
          = (getCommentWithCache wParse (some (wFile, wRange)) wCfg
              initState).2.parseCount
        ∧ (getCommentWithCache wParse (some (wFile, wRange)) wCfg
            (getCommentWithCache wParse (some (wFile, wRange)) wCfg
              initState).2).2.heap rid2
          = (getCommentWithCache wParse (some (wFile, wRange)) wCfg
              initState).2.heap 1 :=
  ⟨wf_initState, rfl,
    C1_idempotent_parsing wParse wFile wRange wCfg initState wf_initState 1
      rfl⟩

/-! ## C2: clone independence -/

/-- A caller mutating, in place, the `Comment` object it received: the heap
cell at id `i` is overwritten with arbitrary new data. -/
def mutateComment (s : EngineState) (i : Nat) (c : Comment) : EngineState :=
  { s with heap := fun j => if j = i then some c else s.heap j }

/-- The observable outcome of one resolution of a range: the data of the
returned `Comment` object, or `none` when resolution returns nothing or
fails. -/
def resolveData (parse : ParseFn) (f : SourceFile) (r : CommentRange)
    (cfg : CommentParserConfig) (s : EngineState) : Option Comment :=
  match getCommentWithCache parse (some (f, r)) cfg s with
  | (.ok (some i), s') => s'.heap i
  | _ => none

theorem mutateComment_cache (s : EngineState) (i : Nat) (c : Comment) :
    (mutateComment s i c).cache = s.cache := rfl

theorem mutateComment_nextId (s : EngineState) (i : Nat) (c : Comment) :
    (mutateComment s i c).nextId = s.nextId := rfl

theorem mutateComment_heap_ne (s : EngineState) (i : Nat) (c : Comment)
    (j : Nat) (h : j ≠ i) : (mutateComment s i c).heap j = s.heap j := by
  simp [mutateComment, h]

theorem resolveData_hit (parse : ParseFn) (f : SourceFile)
    (r : CommentRange) (cfg : CommentParserConfig) (t : EngineState)
    (cid : Nat) (h : t.cache f.id r.pos = some cid) :
    resolveData parse f r cfg t = some ((t.heap cid).getD Comment.empty) := by
  unfold resolveData
  rw [gcwc_hit parse f r cfg t cid h]
  exact allocClone_heap_self ..

/-- C2: the `Comment` returned by the shared core is an independent clone
of the canonical cached value (the cache holds a different object id with
equal data), and overwriting the returned object leaves the cache mapping
untouched, so a subsequent resolution of the same range returns the same
result as without the mutation. -/
theorem C2_clone_independence
    (parse : ParseFn) (f : SourceFile) (r : CommentRange)
    (cfg : CommentParserConfig) (s : EngineState) (hwf : WF s) (rid : Nat)
    (h1 : (getCommentWithCache parse (some (f, r)) cfg s).1
      = .ok (some rid)) :
    (∃ cid : Nat,
      (getCommentWithCache parse (some (f, r)) cfg s).2.cache f.id r.pos
        = some cid
      ∧ rid ≠ cid
      ∧ (getCommentWithCache parse (some (f, r)) cfg s).2.heap rid
        = (getCommentWithCache parse (some (f, r)) cfg s).2.heap cid)
    ∧ ∀ mutated : Comment,
        (mutateComment (getCommentWithCache parse (some (f, r)) cfg s).2
            rid mutated).cache
          = (getCommentWithCache parse (some (f, r)) cfg s).2.cache
        ∧ resolveData parse f r cfg
            (mutateComment (getCommentWithCache parse (some (f, r)) cfg s).2
              rid mutated)
          = resolveData parse f r cfg
              (getCommentWithCache parse (some (f, r)) cfg s).2 := by
  rcases hc : s.cache f.id r.pos with _ | cid
  · cases hk : r.kind
    case multiLine =>
      rw [gcwc_miss_multi parse f r cfg s hc hk] at h1 ⊢
      simp only [Except.ok.injEq, Option.some.injEq] at h1
      subst h1
      constructor
      · refine ⟨s.nextId, storeAndClone_cache_self .., Nat.succ_ne_self _, ?_⟩
        rw [storeAndClone_heap_canonical, storeAndClone_heap_clone]
      · intro mutated
        refine ⟨rfl, ?_⟩
        rw [resolveData_hit parse f r cfg _ s.nextId
            (by rw [mutateComment_cache]; exact storeAndClone_cache_self ..),
          resolveData_hit parse f r cfg _ s.nextId
            (storeAndClone_cache_self ..),
          mutateComment_heap_ne _ _ _ _ (Nat.ne_of_lt (Nat.lt_succ_self _))]
    case singleLine =>
      rw [gcwc_miss_line parse f r cfg s hc hk] at h1
      simp at h1
  · obtain ⟨hlt, hsome⟩ := hwf f.id r.pos cid hc
    rw [gcwc_hit parse f r cfg s cid hc] at h1 ⊢
    simp only [Except.ok.injEq, Option.some.injEq] at h1
    subst h1
    obtain ⟨v, hv⟩ := Option.isSome_iff_exists.mp hsome
    constructor
    · refine ⟨cid, ?_, Nat.ne_of_gt hlt, ?_⟩
      · rw [allocClone_cache]; exact hc
      · rw [allocClone_heap_self,
          allocClone_heap_ne s _ cid (Nat.ne_of_lt hlt), hv,
          Option.getD_some]
    · intro mutated
      refine ⟨rfl, ?_⟩
      rw [resolveData_hit parse f r cfg _ cid
          (by rw [mutateComment_cache, allocClone_cache]; exact hc),
        resolveData_hit parse f r cfg _ cid
          (by rw [allocClone_cache]; exact hc),
        mutateComment_heap_ne _ _ _ _ (Nat.ne_of_lt hlt)]

/-- C2 witness: a first resolution from the initial state; the returned
clone (id 1) is distinct from the canonical cached object and mutating it
does not disturb later resolutions. -/
theorem C2_clone_independence_witness :
    WF initState
    ∧ (getCommentWithCache wParse (some (wFile, wRange)) wCfg initState).1
        = .ok (some 1)
    ∧ ((∃ cid : Nat,
        (getCommentWithCache wParse (some (wFile, wRange)) wCfg
          initState).2.cache wFile.id wRange.pos = some cid
        ∧ 1 ≠ cid
        ∧ (getCommentWithCache wParse (some (wFile, wRange)) wCfg
            initState).2.heap 1
          = (getCommentWithCache wParse (some (wFile, wRange)) wCfg
              initState).2.heap cid)
      ∧ ∀ mutated : Comment,
          (mutateComment
              (getCommentWithCache wParse (some (wFile, wRange)) wCfg
                initState).2 1 mutated).cache
            = (getCommentWithCache wParse (some (wFile, wRange)) wCfg
                initState).2.cache
          ∧ resolveData wParse wFile wRange wCfg
              (mutateComment
                (getCommentWithCache wParse (some (wFile, wRange)) wCfg
                  initState).2 1 mutated)
            = resolveData wParse wFile wRange wCfg
                (getCommentWithCache wParse (some (wFile, wRange)) wCfg
                  initState).2) :=
  ⟨wf_initState, rfl,
    C2_clone_independence wParse wFile wRange wCfg initState wf_initState 1
      rfl⟩

/-! ## C3: line-style comments -/

/-- C3 counter-evidence: on a discovered line-style comment range the
shared core does not produce a typed unsupported result — it crashes the
resolution by throwing the unexplained string literal "GERRIT FIX ME". -/
theorem C3_line_style_throws_placeholder :
    getCommentWithCache wParse
        (some (wFile, ⟨CommentKind.singleLine, 0, 10⟩)) wCfg initState
      = (.error (.thrown "GERRIT FIX ME"), initState) := rfl

/-! ## The applicability filter (C4, C5, C10) -/

/-- Unfolding of `getComment` when the cache core returned a comment: the
applicability filter runs on the returned clone's data. -/
theorem getComment_found (parse : ParseFn) (discover : DiscoverFn)
    (sym : Symbol) (kind : ReflectionKind) (cfg : CommentParserConfig)
    (s : EngineState) (cid : Nat)
    (h1 : (getCommentWithCache parse (discover sym kind) cfg s).1
      = .ok (some cid)) :
    getComment parse discover sym kind cfg s =
      (let s1 := (getCommentWithCache parse (discover sym kind) cfg s).2
       let c := (s1.heap cid).getD Comment.empty
       if declsHaveSourceFile sym
           ∧ ¬ c.hasModifier "@packageDocumentation"
           ∧ c.getTag "@module" = none then
         (.ok none, s1)
       else if ¬ declsHaveSourceFile sym
           ∧ (c.hasModifier "@packageDocumentation"
              ∨ (c.getTag "@module").isSome) then
         (.ok none, s1)
       else
         (.ok (some cid), s1)) := by
  have hpair : getCommentWithCache parse (discover sym kind) cfg s
      = (.ok (some cid),
         (getCommentWithCache parse (discover sym kind) cfg s).2) := by
    rw [← h1]
  rw [getComment, hpair]

/-- The guard of the module-attribution branch of the filter: the symbol's
declarations include a whole source file and a comment was found. -/
def moduleCheckApplies (sym : Symbol) (found : Bool) : Bool :=
  declsHaveSourceFile sym && found

/-- The guard of the cross-attribution branch of the filter: the symbol's
declarations do not include a whole source file and a comment was found. -/
def crossCheckApplies (sym : Symbol) (found : Bool) : Bool :=
  !declsHaveSourceFile sym && found

/-- C4: for a whole-source-unit symbol whose resolution found a comment,
`getComment` returns that comment exactly when it carries the
`@packageDocumentation` modifier or a `@module` tag, and nothing
otherwise. -/
theorem C4_module_attribution
    (parse : ParseFn) (discover : DiscoverFn) (sym : Symbol)
    (kind : ReflectionKind) (cfg : CommentParserConfig) (s : EngineState)
    (cid : Nat) (c : Comment)
    (hmod : declsHaveSourceFile sym = true)
    (h1 : (getCommentWithCache parse (discover sym kind) cfg s).1
      = .ok (some cid))
    (hc : ((getCommentWithCache parse (discover sym kind) cfg s).2).heap cid
      = some c) :
    (getComment parse discover sym kind cfg s).1
      = if c.hasModifier "@packageDocumentation"
            ∨ (c.getTag "@module").isSome then
          .ok (some cid)
        else .ok none := by
  rw [getComment_found parse discover sym kind cfg s cid h1]
  simp only [hc, Option.getD_some, hmod]
  rcases hA : c.hasModifier "@packageDocumentation" with _ | _
  · rcases hB : c.getTag "@module" with _ | tg
    · simp [hA, hB]
    · simp [hA, hB]
  · simp [hA]

/-- C4 witness: a module symbol (one source-file declaration) whose
comment carries `@packageDocumentation` — the filter keeps it. -/
def wModComment : Comment := ⟨[], [], ["@packageDocumentation"]⟩

/-- A parser producing the module-marked comment. -/
def wParseMod : ParseFn := fun _ _ _ _ => wModComment

/-- A discoverer that always finds the fixture range. -/
def wDiscover : DiscoverFn := fun _ _ => some (wFile, wRange)

/-- A symbol whose declarations include a whole source file. -/
def wSymModule : Symbol := ⟨some [⟨true⟩]⟩

/-- A symbol with one non-source-file declaration. -/
def wSymPlain : Symbol := ⟨some [⟨false⟩]⟩

/-- A symbol with no declarations list at all. -/
def wSymNoDecls : Symbol := ⟨none⟩

theorem C4_module_attribution_witness :
    declsHaveSourceFile wSymModule = true
    ∧ (getCommentWithCache wParseMod (wDiscover wSymModule 0) wCfg
        initState).1 = .ok (some 1)
    ∧ ((getCommentWithCache wParseMod (wDiscover wSymModule 0) wCfg
        initState).2).heap 1 = some wModComment
    ∧ (getComment wParseMod wDiscover wSymModule 0 wCfg initState).1
      = if wModComment.hasModifier "@packageDocumentation"
            ∨ (wModComment.getTag "@module").isSome then
          .ok (some 1)
        else .ok none :=
  ⟨rfl, rfl, by decide,
    C4_module_attribution wParseMod wDiscover wSymModule 0 wCfg initState 1
      wModComment rfl rfl (by decide)⟩

/-- C5: for a non-whole-source-unit symbol whose resolution found a
comment carrying the module marker or a `@module` tag, `getComment`
returns nothing; and on any call where a comment was found, exactly one of
the two applicability-filter guards applies. -/
theorem C5_cross_attribution_rejection
    (parse : ParseFn) (discover : DiscoverFn) (sym : Symbol)
    (kind : ReflectionKind) (cfg : CommentParserConfig) (s : EngineState)
    (cid : Nat) (c : Comment)
    (hnot : declsHaveSourceFile sym = false)
    (h1 : (getCommentWithCache parse (discover sym kind) cfg s).1
      = .ok (some cid))
    (hc : ((getCommentWithCache parse (discover sym kind) cfg s).2).heap cid
      = some c)
    (hmark : c.hasModifier "@packageDocumentation"
      ∨ (c.getTag "@module").isSome) :
    (getComment parse discover sym kind cfg s).1 = .ok none
    ∧ ∀ sym' : Symbol,
        moduleCheckApplies sym' true ≠ crossCheckApplies sym' true := by
  constructor
  · rw [getComment_found parse discover sym kind cfg s cid h1]
    simp only [hc, Option.getD_some]
    rcases hmark with hA | hB
    · simp [hnot, hA]
    · obtain ⟨tg, htg⟩ := Option.isSome_iff_exists.mp hB
      simp [hnot, htg]
  · intro sym'
    rcases h : declsHaveSourceFile sym' with _ | _ <;>
      simp [moduleCheckApplies, crossCheckApplies, h]

theorem C5_cross_attribution_rejection_witness :
    declsHaveSourceFile wSymPlain = false
    ∧ (getCommentWithCache wParseMod (wDiscover wSymPlain 0) wCfg
        initState).1 = .ok (some 1)
    ∧ ((getCommentWithCache wParseMod (wDiscover wSymPlain 0) wCfg
        initState).2).heap 1 = some wModComment
    ∧ (wModComment.hasModifier "@packageDocumentation"
        ∨ (wModComment.getTag "@module").isSome)
    ∧ ((getComment wParseMod wDiscover wSymPlain 0 wCfg initState).1
        = .ok none
      ∧ ∀ sym' : Symbol,
          moduleCheckApplies sym' true ≠ crossCheckApplies sym' true) :=
  ⟨rfl, rfl, by decide, Or.inl (by decide),
    C5_cross_attribution_rejection wParseMod wDiscover wSymPlain 0 wCfg
      initState 1 wModComment rfl rfl (by decide) (Or.inl (by decide))⟩

/-- C10: a symbol whose declarations list is absent or has no source-file
entry is treated as a non-module binding — the module-positive filter is
skipped and the cross-attribution filter applies: a discovered comment
carrying `@packageDocumentation` or `@module` is discarded, while one
carrying neither survives the filter untouched. -/
theorem C10_no_declarations_non_module
    (parse : ParseFn) (discover : DiscoverFn) (sym : Symbol)
    (kind : ReflectionKind) (cfg : CommentParserConfig) (s : EngineState)
    (cid : Nat) (c : Comment)
    (hnot : declsHaveSourceFile sym = false)
    (h1 : (getCommentWithCache parse (discover sym kind) cfg s).1
      = .ok (some cid))
    (hc : ((getCommentWithCache parse (discover sym kind) cfg s).2).heap cid
      = some c) :
    ((c.hasModifier "@packageDocumentation" ∨ (c.getTag "@module").isSome) →
      (getComment parse discover sym kind cfg s).1 = .ok none)
    ∧ (¬ (c.hasModifier "@packageDocumentation"
          ∨ (c.getTag "@module").isSome) →
      (getComment parse discover sym kind cfg s).1 = .ok (some cid)) := by
  rw [getComment_found parse discover sym kind cfg s cid h1]
  simp only [hc, Option.getD_some]
  constructor
  · intro hmark
    rcases hmark with hA | hB
    · simp [hnot, hA]
    · obtain ⟨tg, htg⟩ := Option.isSome_iff_exists.mp hB
      simp [hnot, htg]
  · intro hmark
    push_neg at hmark
    obtain ⟨hA, hB⟩ := hmark
    simp only [Bool.not_eq_true] at hA
    have hB' : c.getTag "@module" = none :=
      Option.not_isSome_iff_eq_none.mp hB
    simp [hnot, hA, hB']

theorem C10_no_declarations_non_module_witness :
    declsHaveSourceFile wSymNoDecls = false
    ∧ (getCommentWithCache wParseMod (wDiscover wSymNoDecls 0) wCfg
        initState).1 = .ok (some 1)
    ∧ ((getCommentWithCache wParseMod (wDiscover wSymNoDecls 0) wCfg
        initState).2).heap 1 = some wModComment
    ∧ (((wModComment.hasModifier "@packageDocumentation"
          ∨ (wModComment.getTag "@module").isSome) →
        (getComment wParseMod wDiscover wSymNoDecls 0 wCfg initState).1
          = .ok none)
      ∧ (¬ (wModComment.hasModifier "@packageDocumentation"
            ∨ (wModComment.getTag "@module").isSome) →
        (getComment wParseMod wDiscover wSymNoDecls 0 wCfg initState).1
          = .ok (some 1))) :=
  ⟨rfl, rfl, by decide,
    C10_no_declarations_non_module wParseMod wDiscover wSymNoDecls 0 wCfg
      initState 1 wModComment rfl rfl (by decide)⟩

/-! ## The sub-tag extractor (C6–C9) -/

/-- The block range `getJsDocComment` hands to the shared core: the
enclosing JSDoc block, always treated as block-style. -/
def jsDocRange (decl : JsDocDeclaration) : CommentRange :=
  ⟨CommentKind.multiLine, decl.jsDocPos, decl.jsDocEnd⟩

/-- Unfolding of `getJsDocComment` when the cache core returned a
comment. -/
theorem getJsDocComment_found (parse : ParseFn) (decl : JsDocDeclaration)
    (cfg : CommentParserConfig) (s : EngineState) (cid : Nat)
    (h1 : (getCommentWithCache parse (some (decl.sourceFile,
        jsDocRange decl)) cfg s).1 = .ok (some cid)) :
    getJsDocComment parse decl cfg s =
      (let s1 := (getCommentWithCache parse (some (decl.sourceFile,
          jsDocRange decl)) cfg s).2
       let c := (s1.heap cid).getD Comment.empty
       if decl.kind = .enumTag then
         (.ok (some (Comment.create ((c.getTag "@enum").map (·.content)))),
          s1)
       else if decl.kind = .template ∧ jsStringTruthy decl.comment
           ∧ decl.typeParameters.length > 1 then
         (.ok none,
          { s1 with warnings := s1.warnings ++ [multiTemplateWarning] })
       else
         match targetName decl with
         | .error e => (.error e, s1)
         | .ok none => (.ok none, s1)
         | .ok (some name) =>
           if name = "" then (.ok none, s1)
           else
             match c.getIdentifiedTag name ("@" ++ decl.tagName) with
             | none =>
               (.ok none,
                { s1 with errors := s1.errors ++ [missingTagError name] })
             | some tag =>
               (.ok (some (Comment.create (some tag.content))), s1)) := by
  have hpair : getCommentWithCache parse
      (some (decl.sourceFile, jsDocRange decl)) cfg s
      = (.ok (some cid),
         (getCommentWithCache parse (some (decl.sourceFile,
           jsDocRange decl)) cfg s).2) := by
    rw [← h1]
  rw [getJsDocComment, show (⟨CommentKind.multiLine, decl.jsDocPos,
    decl.jsDocEnd⟩ : CommentRange) = jsDocRange decl from rfl, hpair]
  rfl

/-- The shared core never emits warnings of its own (they come from the
external parser, out of scope): logged warnings are preserved. -/
theorem gcwc_warnings (parse : ParseFn)
    (d : Option (SourceFile × CommentRange)) (cfg : CommentParserConfig)
    (s : EngineState) :
    ((getCommentWithCache parse d cfg s).2).warnings = s.warnings := by
  rcases d with _ | ⟨f, r⟩
  · rfl
  · rcases hc : s.cache f.id r.pos with _ | cid
    · cases hk : r.kind
      case multiLine => rw [gcwc_miss_multi parse f r cfg s hc hk]; rfl
      case singleLine => rw [gcwc_miss_line parse f r cfg s hc hk]
    · rw [gcwc_hit parse f r cfg s cid hc]; rfl

/-- The shared core never emits errors: logged errors are preserved. -/
theorem gcwc_errors (parse : ParseFn)
    (d : Option (SourceFile × CommentRange)) (cfg : CommentParserConfig)
    (s : EngineState) :
    ((getCommentWithCache parse d cfg s).2).errors = s.errors := by
  rcases d with _ | ⟨f, r⟩
  · rfl
  · rcases hc : s.cache f.id r.pos with _ | cid
    · cases hk : r.kind
      case multiLine => rw [gcwc_miss_multi parse f r cfg s hc hk]; rfl
      case singleLine => rw [gcwc_miss_line parse f r cfg s hc hk]
    · rw [gcwc_hit parse f r cfg s cid hc]; rfl

/-- The enum-member branch of the extractor: a new `Comment` built from
the `@enum` tag's content of the resolved block. -/
theorem getJsDocComment_enum (parse : ParseFn) (decl : JsDocDeclaration)
    (cfg : CommentParserConfig) (s : EngineState) (cid : Nat)
    (hk : decl.kind = .enumTag)
    (h1 : (getCommentWithCache parse (some (decl.sourceFile,
        jsDocRange decl)) cfg s).1 = .ok (some cid)) :
    getJsDocComment parse decl cfg s =
      (let c := ((((getCommentWithCache parse (some (decl.sourceFile,
          jsDocRange decl)) cfg s).2).heap cid).getD Comment.empty)
       (.ok (some (Comment.create ((c.getTag "@enum").map (·.content)))),
        (getCommentWithCache parse (some (decl.sourceFile,
          jsDocRange decl)) cfg s).2)) := by
  rw [getJsDocComment_found parse decl cfg s cid h1]
  simp [hk]

/-- Enum extraction against an unparsed block: the block is parsed, stored
canonically, and the extraction reads the parsed block's `@enum` tag. -/
theorem jsdoc_enum_miss (parse : ParseFn) (decl : JsDocDeclaration)
    (cfg : CommentParserConfig) (s : EngineState)
    (hk : decl.kind = .enumTag)
    (hmiss : s.cache decl.sourceFile.id decl.jsDocPos = none) :
    getJsDocComment parse decl cfg s =
      (let block := parse decl.sourceFile.text decl.jsDocPos decl.jsDocEnd
        cfg
       (.ok (some (Comment.create ((block.getTag "@enum").map (·.content)))),
        (storeAndClone s decl.sourceFile.id decl.jsDocPos block).2)) := by
  have h1 : (getCommentWithCache parse (some (decl.sourceFile,
      jsDocRange decl)) cfg s).1 = .ok (some (s.nextId + 1)) := by
    rw [gcwc_miss_multi parse decl.sourceFile (jsDocRange decl) cfg s hmiss
      rfl]
  rw [getJsDocComment_enum parse decl cfg s (s.nextId + 1) hk h1,
    gcwc_miss_multi parse decl.sourceFile (jsDocRange decl) cfg s hmiss rfl]
  simp only [jsDocRange]
  rw [storeAndClone_heap_clone, Option.getD_some]

/-- Enum extraction against an already-parsed block: served from the
cached canonical value. -/
theorem jsdoc_enum_hit (parse : ParseFn) (decl : JsDocDeclaration)
    (cfg : CommentParserConfig) (s : EngineState) (cid : Nat)
    (hk : decl.kind = .enumTag)
    (hhit : s.cache decl.sourceFile.id decl.jsDocPos = some cid) :
    getJsDocComment parse decl cfg s =
      (let canon := (s.heap cid).getD Comment.empty
       (.ok (some (Comment.create ((canon.getTag "@enum").map (·.content)))),
        (allocClone s canon).2)) := by
  have h1 : (getCommentWithCache parse (some (decl.sourceFile,
      jsDocRange decl)) cfg s).1 = .ok (some s.nextId) := by
    rw [gcwc_hit parse decl.sourceFile (jsDocRange decl) cfg s cid hhit]
  rw [getJsDocComment_enum parse decl cfg s s.nextId hk h1,
    gcwc_hit parse decl.sourceFile (jsDocRange decl) cfg s cid hhit,
    allocClone_heap_self, Option.getD_some]

/-- C6: when the parsed enclosing block structurally lacks a tag matching
both the target name and the tag-name token, the extractor logs the fatal
bug-report error (it does not silently return nothing), and the failure
leaves the comment cache exactly as the block's resolution left it. -/
theorem C6_missing_tag_bug_report
    (parse : ParseFn) (decl : JsDocDeclaration) (cfg : CommentParserConfig)
    (s : EngineState) (cid : Nat) (c : Comment) (name : String)
    (hkE : decl.kind ≠ JsDocDeclKind.enumTag)
    (hnamb : ¬ (decl.kind = JsDocDeclKind.template
      ∧ jsStringTruthy decl.comment ∧ decl.typeParameters.length > 1))
    (hname : targetName decl = .ok (some name))
    (hnempty : name ≠ "")
    (h1 : (getCommentWithCache parse (some (decl.sourceFile,
      jsDocRange decl)) cfg s).1 = .ok (some cid))
    (hc : ((getCommentWithCache parse (some (decl.sourceFile,
      jsDocRange decl)) cfg s).2).heap cid = some c)
    (htag : c.getIdentifiedTag name ("@" ++ decl.tagName) = none) :
    (getJsDocComment parse decl cfg s).1 = .ok none
    ∧ ((getJsDocComment parse decl cfg s).2).errors
      = s.errors ++ [missingTagError name]
    ∧ ((getJsDocComment parse decl cfg s).2).cache
      = ((getCommentWithCache parse (some (decl.sourceFile,
          jsDocRange decl)) cfg s).2).cache := by
  rw [getJsDocComment_found parse decl cfg s cid h1]
  simp only [hc, Option.getD_some, hkE, hnamb, if_false, hname, hnempty,
    htag]
  refine ⟨by trivial, ?_, by trivial⟩
  show ((getCommentWithCache parse (some (decl.sourceFile,
    jsDocRange decl)) cfg s).2).errors ++ [missingTagError name]
    = s.errors ++ [missingTagError name]
  rw [gcwc_errors]

/-- A property-like declaration whose name has no matching tag in the
(blank) parsed block. -/
def wDeclProp : JsDocDeclaration :=
  ⟨JsDocDeclKind.propertyLike, wFile, 0, 10, none, [], some "x", "param"⟩

theorem C6_missing_tag_bug_report_witness :
    wDeclProp.kind ≠ JsDocDeclKind.enumTag
    ∧ ¬ (wDeclProp.kind = JsDocDeclKind.template
        ∧ jsStringTruthy wDeclProp.comment
        ∧ wDeclProp.typeParameters.length > 1)
    ∧ targetName wDeclProp = .ok (some "x")
    ∧ "x" ≠ ""
    ∧ (getCommentWithCache wParse (some (wDeclProp.sourceFile,
        jsDocRange wDeclProp)) wCfg initState).1 = .ok (some 1)
    ∧ ((getCommentWithCache wParse (some (wDeclProp.sourceFile,
        jsDocRange wDeclProp)) wCfg initState).2).heap 1 = some wComment
    ∧ wComment.getIdentifiedTag "x" ("@" ++ wDeclProp.tagName) = none
    ∧ ((getJsDocComment wParse wDeclProp wCfg initState).1 = .ok none
      ∧ ((getJsDocComment wParse wDeclProp wCfg initState).2).errors
        = initState.errors ++ [missingTagError "x"]
      ∧ ((getJsDocComment wParse wDeclProp wCfg initState).2).cache
        = ((getCommentWithCache wParse (some (wDeclProp.sourceFile,
            jsDocRange wDeclProp)) wCfg initState).2).cache) :=
  ⟨by decide, by decide, rfl, by decide, rfl, by decide, by decide,
    C6_missing_tag_bug_report wParse wDeclProp wCfg initState 1 wComment "x"
      (by decide) (by decide) rfl (by decide) rfl (by decide) (by decide)⟩

/-- C7: a `@template` tag carrying an inline comment and listing more than
one type parameter yields nothing, with exactly one warning appended to
the log; and whenever a template declaration reaches name determination,
the first listed type parameter's name is the target name. -/
theorem C7_ambiguous_template_extraction
    (parse : ParseFn) (decl : JsDocDeclaration) (cfg : CommentParserConfig)
    (s : EngineState) (cid : Nat)
    (hkT : decl.kind = JsDocDeclKind.template)
    (hinl : jsStringTruthy decl.comment = true)
    (hmul : decl.typeParameters.length > 1)
    (h1 : (getCommentWithCache parse (some (decl.sourceFile,
      jsDocRange decl)) cfg s).1 = .ok (some cid)) :
    (getJsDocComment parse decl cfg s).1 = .ok none
    ∧ ((getJsDocComment parse decl cfg s).2).warnings
      = s.warnings ++ [multiTemplateWarning]
    ∧ ∀ (d : JsDocDeclaration) (n : String) (rest : List String),
        d.kind = JsDocDeclKind.template → d.typeParameters = n :: rest →
        targetName d = .ok (some n) := by
  rw [getJsDocComment_found parse decl cfg s cid h1]
  simp only [hkT, hinl, hmul]
  refine ⟨?_, ?_, ?_⟩
  · simp
  · simp only [reduceCtorEq, if_false, and_self, if_true, true_and]
    show ((getCommentWithCache parse (some (decl.sourceFile,
      jsDocRange decl)) cfg s).2).warnings ++ [multiTemplateWarning]
      = s.warnings ++ [multiTemplateWarning]
    rw [gcwc_warnings]
  · intro d n rest hk hl
    simp [targetName, hk, hl]

/-- A `@template` tag listing two type parameters plus an inline
comment. -/
def wDeclTemplAmb : JsDocDeclaration :=
  ⟨JsDocDeclKind.template, wFile, 0, 10, some "c", ["T", "U"], none,
    "template"⟩

theorem C7_ambiguous_template_extraction_witness :
    wDeclTemplAmb.kind = JsDocDeclKind.template
    ∧ jsStringTruthy wDeclTemplAmb.comment = true
    ∧ wDeclTemplAmb.typeParameters.length > 1
    ∧ (getCommentWithCache wParse (some (wDeclTemplAmb.sourceFile,
        jsDocRange wDeclTemplAmb)) wCfg initState).1 = .ok (some 1)
    ∧ ((getJsDocComment wParse wDeclTemplAmb wCfg initState).1 = .ok none
      ∧ ((getJsDocComment wParse wDeclTemplAmb wCfg initState).2).warnings
        = initState.warnings ++ [multiTemplateWarning]
      ∧ ∀ (d : JsDocDeclaration) (n : String) (rest : List String),
          d.kind = JsDocDeclKind.template → d.typeParameters = n :: rest →
          targetName d = .ok (some n)) :=
  ⟨rfl, by decide, by decide, rfl,
    C7_ambiguous_template_extraction wParse wDeclTemplAmb wCfg initState 1
      rfl (by decide) (by decide) rfl⟩

/-- C9: an enum-member extraction whose parsed block has no `@enum` tag
still returns a `Comment` (built from absent content, hence empty), emits
no error, and never reaches the missing-tag bug-report check. -/
theorem C9_enum_without_tag_returns_comment
    (parse : ParseFn) (decl : JsDocDeclaration) (cfg : CommentParserConfig)
    (s : EngineState) (cid : Nat) (c : Comment)
    (hk : decl.kind = JsDocDeclKind.enumTag)
    (h1 : (getCommentWithCache parse (some (decl.sourceFile,
      jsDocRange decl)) cfg s).1 = .ok (some cid))
    (hc : ((getCommentWithCache parse (some (decl.sourceFile,
      jsDocRange decl)) cfg s).2).heap cid = some c)
    (htg : c.getTag "@enum" = none) :
    (getJsDocComment parse decl cfg s).1 = .ok (some (Comment.create none))
    ∧ ((getJsDocComment parse decl cfg s).2).errors = s.errors := by
  rw [getJsDocComment_enum parse decl cfg s cid hk h1]
  constructor
  · simp [hc, htg]
  · show ((getCommentWithCache parse (some (decl.sourceFile,
      jsDocRange decl)) cfg s).2).errors = s.errors
    exact gcwc_errors ..

/-- An enum-member declaration over the blank parsed block. -/
def wDeclEnumNoTag : JsDocDeclaration :=
  ⟨JsDocDeclKind.enumTag, wFile, 0, 10, none, [], none, "enum"⟩

theorem C9_enum_without_tag_returns_comment_witness :
    wDeclEnumNoTag.kind = JsDocDeclKind.enumTag
    ∧ (getCommentWithCache wParse (some (wDeclEnumNoTag.sourceFile,
        jsDocRange wDeclEnumNoTag)) wCfg initState).1 = .ok (some 1)
    ∧ ((getCommentWithCache wParse (some (wDeclEnumNoTag.sourceFile,
        jsDocRange wDeclEnumNoTag)) wCfg initState).2).heap 1
      = some wComment
    ∧ wComment.getTag "@enum" = none
    ∧ ((getJsDocComment wParse wDeclEnumNoTag wCfg initState).1
        = .ok (some (Comment.create none))
      ∧ ((getJsDocComment wParse wDeclEnumNoTag wCfg initState).2).errors
        = initState.errors) :=
  ⟨rfl, rfl, by decide, by decide,
    C9_enum_without_tag_returns_comment wParse wDeclEnumNoTag wCfg initState
      1 wComment rfl rfl (by decide) (by decide)⟩

/-- C8: three enum-member extractions against the same not-yet-parsed
parent block whose parse yields one `@enum` tag all return a `Comment`
built from that single tag's content, and the block is parsed exactly once
(the parse counter rises by one over the whole sequence). -/
theorem C8_enum_sub_tag_sharing
    (parse : ParseFn) (d1 d2 d3 : JsDocDeclaration)
    (cfg : CommentParserConfig) (s : EngineState) (tg : CommentTag)
    (hk1 : d1.kind = JsDocDeclKind.enumTag)
    (hk2 : d2.kind = JsDocDeclKind.enumTag)
    (hk3 : d3.kind = JsDocDeclKind.enumTag)
    (hf2 : d2.sourceFile = d1.sourceFile) (hp2 : d2.jsDocPos = d1.jsDocPos)
    (hf3 : d3.sourceFile = d1.sourceFile) (hp3 : d3.jsDocPos = d1.jsDocPos)
    (hmiss : s.cache d1.sourceFile.id d1.jsDocPos = none)
    (htg : (parse d1.sourceFile.text d1.jsDocPos d1.jsDocEnd cfg).getTag
      "@enum" = some tg) :
    (getJsDocComment parse d1 cfg s).1
      = .ok (some (Comment.create (some tg.content)))
    ∧ (getJsDocComment parse d2 cfg
        (getJsDocComment parse d1 cfg s).2).1
      = .ok (some (Comment.create (some tg.content)))
    ∧ (getJsDocComment parse d3 cfg
        (getJsDocComment parse d2 cfg
          (getJsDocComment parse d1 cfg s).2).2).1
      = .ok (some (Comment.create (some tg.content)))
    ∧ ((getJsDocComment parse d3 cfg
        (getJsDocComment parse d2 cfg
          (getJsDocComment parse d1 cfg s).2).2).2).parseCount
      = s.parseCount + 1 := by
  have e1 := jsdoc_enum_miss parse d1 cfg s hk1 hmiss
  simp only [htg, Option.map_some'] at e1
  have hhit2 : ((storeAndClone s d1.sourceFile.id d1.jsDocPos
      (parse d1.sourceFile.text d1.jsDocPos d1.jsDocEnd cfg)).2).cache
      d2.sourceFile.id d2.jsDocPos = some s.nextId := by
    rw [hf2, hp2]
    exact storeAndClone_cache_self ..
  have e2 := jsdoc_enum_hit parse d2 cfg _ s.nextId hk2 hhit2
  rw [storeAndClone_heap_canonical] at e2
  simp only [Option.getD_some, htg, Option.map_some'] at e2
  have hne : s.nextId ≠ ((storeAndClone s d1.sourceFile.id d1.jsDocPos
      (parse d1.sourceFile.text d1.jsDocPos d1.jsDocEnd cfg)).2).nextId := by
    rw [storeAndClone_nextId]
    omega
  have hhit3 : ((allocClone ((storeAndClone s d1.sourceFile.id d1.jsDocPos
      (parse d1.sourceFile.text d1.jsDocPos d1.jsDocEnd cfg)).2)
      (parse d1.sourceFile.text d1.jsDocPos d1.jsDocEnd cfg)).2).cache
      d3.sourceFile.id d3.jsDocPos = some s.nextId := by
    rw [hf3, hp3, allocClone_cache]
    exact storeAndClone_cache_self ..
  have hdata2 : ((allocClone ((storeAndClone s d1.sourceFile.id d1.jsDocPos
      (parse d1.sourceFile.text d1.jsDocPos d1.jsDocEnd cfg)).2)
      (parse d1.sourceFile.text d1.jsDocPos d1.jsDocEnd cfg)).2).heap
      s.nextId
      = some (parse d1.sourceFile.text d1.jsDocPos d1.jsDocEnd cfg) := by
    rw [allocClone_heap_ne _ _ _ hne]
    exact storeAndClone_heap_canonical ..
  have e3 := jsdoc_enum_hit parse d3 cfg _ s.nextId hk3 hhit3
  rw [hdata2] at e3
  simp only [Option.getD_some, htg, Option.map_some'] at e3
  refine ⟨?_, ?_, ?_, ?_⟩
  · rw [e1]
  · simp only [e1, e2]
  · simp only [e1, e2, e3]
  · simp only [e1, e2, e3]
    rw [allocClone_parseCount, allocClone_parseCount,
      storeAndClone_parseCount]

/-- The single `@enum` tag of the fixture block. -/
def wEnumTag : CommentTag := ⟨"@enum", none, ["desc"]⟩

/-- A parsed block carrying exactly one `@enum` tag. -/
def wEnumComment : Comment := ⟨[], [wEnumTag], []⟩

/-- A parser producing the `@enum`-tagged block. -/
def wParseEnum : ParseFn := fun _ _ _ _ => wEnumComment

/-- An enum-member declaration over the `@enum`-tagged block. -/
def wDeclEnum : JsDocDeclaration :=
  ⟨JsDocDeclKind.enumTag, wFile, 0, 10, none, [], none, "enum"⟩

theorem C8_enum_sub_tag_sharing_witness :
    wDeclEnum.kind = JsDocDeclKind.enumTag
    ∧ initState.cache wDeclEnum.sourceFile.id wDeclEnum.jsDocPos = none
    ∧ (wParseEnum wDeclEnum.sourceFile.text wDeclEnum.jsDocPos
        wDeclEnum.jsDocEnd wCfg).getTag "@enum" = some wEnumTag
    ∧ ((getJsDocComment wParseEnum wDeclEnum wCfg initState).1
        = .ok (some (Comment.create (some wEnumTag.content)))
      ∧ (getJsDocComment wParseEnum wDeclEnum wCfg
          (getJsDocComment wParseEnum wDeclEnum wCfg initState).2).1
        = .ok (some (Comment.create (some wEnumTag.content)))
      ∧ (getJsDocComment wParseEnum wDeclEnum wCfg
          (getJsDocComment wParseEnum wDeclEnum wCfg
            (getJsDocComment wParseEnum wDeclEnum wCfg initState).2).2).1
        = .ok (some (Comment.create (some wEnumTag.content)))
      ∧ ((getJsDocComment wParseEnum wDeclEnum wCfg
          (getJsDocComment wParseEnum wDeclEnum wCfg
            (getJsDocComment wParseEnum wDeclEnum wCfg initState).2).2).2).parseCount
        = initState.parseCount + 1) :=
  ⟨rfl, rfl, by decide,
    C8_enum_sub_tag_sharing wParseEnum wDeclEnum wDeclEnum wDeclEnum wCfg
      initState wEnumTag rfl rfl rfl rfl rfl rfl rfl rfl (by decide)⟩

end TDoc
